import Mathlib

/-!
Shallow embedding of `stackstac/to_dask.py`: lazy dask-graph construction for
stacks of raster assets, and the window-fetch executor.

Modelling conventions:
* Machine floats of the source appear only as geographic coordinates and
  affine-transform coefficients; they are embedded as exact rationals.
* numpy arrays are embedded as shape-plus-index-function records; the reader
  table (a 2-D object ndarray) is a list of lists.
* Fallible code (the fill-value `ValueError`, the two `assert` statements)
  returns `Except`.
* The opaque `Reader` protocol is a record whose `read` takes an extra state
  argument of an arbitrary type `W`, standing for the outside world (network,
  files); determinism of `read` is then a hypothesis, not a baked-in fact.
-/

namespace StackStac

/-! ### numpy scalar values and dtypes -/

/-- A Python / numpy float value: a finite value (embedded exactly as a
rational), not-a-number, or an infinity. -/
inductive FloatVal where
  | finite : ℚ → FloatVal
  | nan : FloatVal
  | inf : FloatVal
  | ninf : FloatVal
deriving DecidableEq

/-- A Python scalar as accepted for `fill_value : Union[int, float]`. -/
inductive PyNum where
  | int : ℤ → PyNum
  | float : FloatVal → PyNum
deriving DecidableEq

/-- The numpy dtypes relevant to raster data. -/
inductive DType where
  | int8 | int16 | int32 | int64
  | uint8 | uint16 | uint32 | uint64
  | float32 | float64
deriving DecidableEq

def DType.isFloat : DType → Bool
  | .float32 => true
  | .float64 => true
  | _ => false

/-- Smallest representable integer of an integer dtype (0 for float dtypes,
where it is unused). -/
def DType.intMin : DType → ℤ
  | .int8 => -(2 ^ 7)
  | .int16 => -(2 ^ 15)
  | .int32 => -(2 ^ 31)
  | .int64 => -(2 ^ 63)
  | _ => 0

/-- Largest representable integer of an integer dtype (0 for float dtypes,
where it is unused). -/
def DType.intMax : DType → ℤ
  | .int8 => 2 ^ 7 - 1
  | .int16 => 2 ^ 15 - 1
  | .int32 => 2 ^ 31 - 1
  | .int64 => 2 ^ 63 - 1
  | .uint8 => 2 ^ 8 - 1
  | .uint16 => 2 ^ 16 - 1
  | .uint32 => 2 ^ 32 - 1
  | .uint64 => 2 ^ 64 - 1
  | _ => 0

/-- Largest finite magnitude of a float dtype (0 for integer dtypes, where it
is unused). -/
def DType.floatMax : DType → ℚ
  | .float32 => (2 ^ 24 - 1) * 2 ^ 104
  | .float64 => (2 ^ 53 - 1) * 2 ^ 971
  | _ => 0

/-- Model of `np.can_cast(value, dtype)` for a Python scalar, i.e. value-based
safe casting: an int fits any float dtype and fits an integer dtype exactly
when it lies in its range; a float value (nan and infinities included) never
fits an integer dtype, and a finite float fits a float dtype when its
magnitude does not overflow it. -/
def can_cast (v : PyNum) (dt : DType) : Bool :=
  match v with
  | .int n => if dt.isFloat then true else decide (dt.intMin ≤ n ∧ n ≤ dt.intMax)
  | .float f =>
    dt.isFloat &&
      match f with
      | .finite q => decide (|q| ≤ dt.floatMax)
      | _ => true

/-- A zero-dimensional numpy scalar: a value tagged with its dtype. -/
structure NpScalar where
  dtype : DType
  val : PyNum
deriving DecidableEq

/-- Model of casting a Python scalar to a dtype, as `np.array(v, dtype)` does.
Exact on inputs satisfying `can_cast v dtype` (the only inputs the core
produces after its validation); overflow wrapping and float truncation of
invalid fills are not modelled further. -/
def castVal (v : PyNum) (dt : DType) : PyNum :=
  match v, dt.isFloat with
  | .int n, true => .float (.finite (n : ℚ))
  | .int n, false => .int n
  | .float f, _ => .float f

/-- `np.array(v, dtype)`: a 0-d scalar array holding `v` cast to `dtype`. -/
def castScalar (v : PyNum) (dt : DType) : NpScalar :=
  ⟨dt, castVal v dt⟩

/-! ### Affine transforms, bounding boxes and pixel windows -/

/-- An affine georeferencing transform. Pixel `(col, row)` maps to coordinate
`(a * col + b * row + c, d * col + e * row + f)`. -/
structure Affine where
  a : ℚ
  b : ℚ
  c : ℚ
  d : ℚ
  e : ℚ
  f : ℚ
deriving DecidableEq

def Affine.det (t : Affine) : ℚ := t.a * t.e - t.b * t.d

/-- The inverse transform applied to a coordinate `(x, y)`, giving the
fractional `(col, row)`. Exact rational arithmetic; both the source affine
library and this model require an invertible transform (nonzero determinant)
for the result to be meaningful. -/
def Affine.invApply (t : Affine) (x y : ℚ) : ℚ × ℚ :=
  ((t.e * (x - t.c) - t.b * (y - t.f)) / t.det,
   (t.a * (y - t.f) - t.d * (x - t.c)) / t.det)

/-- Bounding box `(min-x, min-y, max-x, max-y)` in the coordinate space of the
raster. -/
def Bbox := ℚ × ℚ × ℚ × ℚ

/-- The raster specification of the output grid: pixel shape `(rows, cols)`
and the affine transform from pixel space to coordinate space. Modelled from
the spec: `RasterSpec` lives in `raster_spec.py` (outside this core); only
these two attributes are consumed here. -/
structure RasterSpec where
  shape : ℕ × ℕ
  transform : Affine

/-- A rectangular pixel-space region, as `rasterio.windows.Window`: offsets
and extents may be fractional. -/
structure Window where
  col_off : ℚ
  row_off : ℚ
  width : ℚ
  height : ℚ
deriving DecidableEq

def Window.row_stop (w : Window) : ℚ := w.row_off + w.height

def Window.col_stop (w : Window) : ℚ := w.col_off + w.width

/-- A Python `slice(start, stop)` with integer endpoints, as produced by the
`Slices` blockwise dependency. -/
structure PySlice where
  start : ℕ
  stop : ℕ
deriving DecidableEq

/-- `rasterio.windows.Window.from_slices(rows, cols)` for plain integer
slices. -/
def Window.from_slices (rows cols : PySlice) : Window :=
  { col_off := (cols.start : ℚ)
    row_off := (rows.start : ℚ)
    width := (cols.stop : ℚ) - (cols.start : ℚ)
    height := (rows.stop : ℚ) - (rows.start : ℚ) }

/-- `rasterio.windows.intersect` on two windows: their row ranges and their
col ranges both overlap with positive measure. -/
def windowsIntersect (u v : Window) : Bool :=
  decide (max u.row_off v.row_off < min u.row_stop v.row_stop) &&
    decide (max u.col_off v.col_off < min u.col_stop v.col_stop)

/-- `rasterio.windows.shape`: rounded height and width. Exact (rounding is
the identity) on the integer-valued windows built by `Window.from_slices`,
which are the only windows this core takes the shape of. -/
def windowShape (w : Window) : ℤ × ℤ :=
  (round w.row_stop - round w.row_off, round w.col_stop - round w.col_off)

/-- `rasterio.windows.from_bounds(left, bottom, right, top, transform,
precision=0.0)`: push the four corners through the inverse transform, take
the bounding box of the fractional pixel coordinates. With zero precision
tolerance no rounding or epsilon slack is applied, so in exact rational
arithmetic this is the closed form. -/
def windowFromBounds (left bottom right top : ℚ) (t : Affine) : Window :=
  let p1 := t.invApply left top
  let p2 := t.invApply right top
  let p3 := t.invApply right bottom
  let p4 := t.invApply left bottom
  let col_start := min (min p1.1 p2.1) (min p3.1 p4.1)
  let col_stop := max (max p1.1 p2.1) (max p3.1 p4.1)
  let row_start := min (min p1.2 p2.2) (min p3.2 p4.2)
  let row_stop := max (max p1.2 p2.2) (max p3.2 p4.2)
  { col_off := col_start
    row_off := row_start
    width := max (col_stop - col_start) 0
    height := max (row_stop - row_start) 0 }

/-! ### The opaque Reader protocol and the reader table -/

/-- A resampling mode (an enum passed through unchanged; `nearest` is code
0). -/
structure Resampling where
  code : ℕ
deriving DecidableEq

def Resampling.nearest : Resampling := ⟨0⟩

/-- An opaque GDAL environment configuration, passed through unchanged. -/
structure LayeredEnv where
  id : ℕ
deriving DecidableEq

/-- An exception class usable in `errors_as_nodata`, passed through
unchanged. -/
structure ErrKind where
  id : ℕ
deriving DecidableEq

/-- A 2-D pixel block as returned by a call to `Reader.read`. -/
structure Block2 where
  rows : ℕ
  cols : ℕ
  val : ℕ → ℕ → PyNum

/-- A 4-D pixel block, the output of the window-fetch executor. The shape is
`(time, band, rows, cols)`; extents are integers as computed by
`windowShape`. -/
structure Block4 where
  shape : ℤ × ℤ × ℤ × ℤ
  val : ℕ → ℕ → ℕ → ℕ → PyNum

/-- The keyword arguments with which the core instantiates a `Reader`: the
URL of one asset plus the configuration shared by the whole array. -/
structure ReaderParams (W : Type) where
  url : String
  spec : RasterSpec
  resampling : Resampling
  dtype : DType
  fill_value : PyNum
  rescale : Bool
  gdal_env : Option LayeredEnv
  errors_as_nodata : List ErrKind

/-- The opaque `Reader` protocol: the attributes the executor consults
(`url`, `dtype`, `fill_value`) and the `read` operation. `read` additionally
takes a state of type `W` standing for the outside world, so that determinism
of `read` is an explicit hypothesis rather than a modelling artifact. -/
structure Reader (W : Type) where
  url : String
  dtype : DType
  fill_value : PyNum
  read : Window → W → Block2

/-- One cell of the reader table: either a 0-d fill scalar (no asset), or a
pair of an instantiated Reader and the pixel window of the asset. -/
inductive ReaderTableEntry (W : Type) where
  | fillArr : NpScalar → ReaderTableEntry W
  | readerWindow : Reader W → Window → ReaderTableEntry W

/-- One cell of the asset table: an optional URL and the asset bounds. -/
structure AssetEntry where
  url : Option String
  bounds : Bbox

/-- `asset_table_to_reader_and_window`: convert one chunk of the asset table
into an object grid of the same shape where each cell with a URL becomes a
`(Reader, Window)` pair — the Reader instantiated with that URL and the
shared configuration, the Window computed from the asset bounds through the
inverse of the raster-spec transform with zero precision tolerance — and each
cell without a URL becomes a 0-d array holding the fill value cast to the
output dtype. -/
def asset_table_to_reader_and_window {W : Type} (asset_table : List (List AssetEntry))
    (spec : RasterSpec) (resampling : Resampling) (dtype : DType)
    (fill_value : PyNum) (rescale : Bool) (gdal_env : Option LayeredEnv)
    (errors_as_nodata : List ErrKind) (reader : ReaderParams W → Reader W) :
    List (List (ReaderTableEntry W)) :=
  asset_table.map fun tableRow =>
    tableRow.map fun asset_entry =>
      match asset_entry.url with
      | none => .fillArr (castScalar fill_value dtype)
      | some url =>
        let asset_window :=
          windowFromBounds asset_entry.bounds.1 asset_entry.bounds.2.1
            asset_entry.bounds.2.2.1 asset_entry.bounds.2.2.2 spec.transform
        .readerWindow
          (reader
            { url := url, spec := spec, resampling := resampling,
              dtype := dtype, fill_value := fill_value, rescale := rescale,
              gdal_env := gdal_env, errors_as_nodata := errors_as_nodata })
          asset_window

/-! ### The window-fetch executor -/

/-- `np.broadcast_to(fill_arr, (1, 1) + windows.shape(current_window))`: a
constant 4-D block of the requested shape with two leading singleton axes. -/
def broadcastTo (v : PyNum) (w : Window) : Block4 :=
  ⟨(1, 1, (windowShape w).1, (windowShape w).2), fun _ _ _ _ => v⟩

/-- `data[None, None]`: add two leading singleton axes to a 2-D block. -/
def addOuterDims (b : Block2) : Block4 :=
  ⟨(1, 1, (b.rows : ℤ), (b.cols : ℤ)), fun _ _ i j => b.val i j⟩

/-- The body of `fetch_raster_window` after its two assertions: if the cell
is a `(Reader, Window)` pair whose window intersects the requested window,
delegate to `Reader.read` and wrap the block with two leading singleton
axes; otherwise broadcast the fill value (stored in the cell, or
`np.array(reader.fill_value, reader.dtype)`) to the requested shape. -/
def fetchWindowBlock {W : Type} (entry : ReaderTableEntry W)
    (current_window : Window) (world : W) : Block4 :=
  match entry with
  | .readerWindow reader asset_window =>
    if windowsIntersect current_window asset_window then
      addOuterDims (reader.read current_window world)
    else
      broadcastTo (castScalar reader.fill_value reader.dtype).val current_window
  | .fillArr fillScalar => broadcastTo fillScalar.val current_window

/-- `fetch_raster_window`: the per-task executor. Asserts it received exactly
two slices and a one-cell reader-entry array (a failed `assert` is the
`Except.error` case), extracts the single entry, builds the requested window
from the two slices and hands off to `fetchWindowBlock`. -/
def fetch_raster_window {W : Type} (reader_entry : List (List (ReaderTableEntry W)))
    (slices : List PySlice) (world : W) : Except String Block4 :=
  match slices, reader_entry.flatten with
  | [rows, cols], [entry] =>
    .ok (fetchWindowBlock entry (Window.from_slices rows cols) world)
  | _, _ => .error "AssertionError"

/-! ### The Slices blockwise dependency (the window index) -/

/-- The `Slices` blockwise dependency: for each output axis it stores the
cumulative chunk offsets (`itertools.accumulate` of the chunk sizes, with
initial value 0) and nothing else. -/
structure Slices where
  starts : List (List ℕ)
deriving DecidableEq

/-- `Slices.__init__`. -/
def Slices.ofChunks (chunks : List (List ℕ)) : Slices :=
  ⟨chunks.map fun chunkRow => List.scanl (· + ·) 0 chunkRow⟩

/-- `Slices.__getitem__`: one `slice(start[i], start[i + 1])` per axis. -/
def Slices.getitem (s : Slices) (idx : List ℕ) : List PySlice :=
  List.zipWith (fun i start => ⟨start.getD i 0, start.getD (i + 1) 0⟩) idx s.starts

/-- `Slices.numblocks`. -/
def Slices.numblocks (s : Slices) : List ℕ :=
  s.starts.map fun start => start.length - 1

/-- `Slices.__dask_distributed_pack__` (the optional `required_indices`
argument is ignored by the source as well). -/
def Slices.dask_distributed_pack (s : Slices)
    (required_indices : Option (List (List ℕ))) : List (List ℕ) :=
  s.starts

/-- `Slices.__dask_distributed_unpack__`. -/
def Slices.dask_distributed_unpack (state : List (List ℕ)) : Slices :=
  ⟨state⟩

/-- Total number of integers the index stores: one cumulative-offset sequence
per axis, nothing proportional to the product of chunk counts. -/
def Slices.storageSize (s : Slices) : ℕ :=
  (s.starts.map List.length).sum

/-- The fill value a reader-table entry supplies when no data is read: the
scalar stored in a fill entry, or the Reader fill value cast to the Reader
dtype (`np.array(reader.fill_value, reader.dtype)`). -/
def ReaderTableEntry.fillValueOf {W : Type} : ReaderTableEntry W → PyNum
  | .fillArr s => s.val
  | .readerWindow r _ => (castScalar r.fill_value r.dtype).val

/-! ### Graph construction: `items_to_dask` -/

/-- `dask.array.core.normalize_chunks(chunksize, shape)` for an integer chunk
size, one axis: full chunks of size `chunksize`, then the remainder if the
axis extent is not a multiple. -/
def normalizeChunksAxis (chunksize dim : ℕ) : List ℕ :=
  List.replicate (dim / chunksize) chunksize ++
    (if dim % chunksize = 0 then [] else [dim % chunksize])

/-- `normalize_chunks` over the 2-D spatial shape `(rows, cols)`. -/
def normalizeChunks (chunksize : ℕ) (shape : ℕ × ℕ) : List (List ℕ) :=
  [normalizeChunksAxis chunksize shape.1, normalizeChunksAxis chunksize shape.2]

/-- One row of `np.ndenumerate`-style keys: cells of `row` keyed
`(i, a), (i, a + 1), ...`. -/
def enumerateRowFrom {α : Type} (i a : ℕ) : List α → List ((ℕ × ℕ) × α)
  | [] => []
  | x :: xs => ((i, a), x) :: enumerateRowFrom i (a + 1) xs

/-- Rows `i, i + 1, ...` of `np.ndenumerate`-style keys of a 2-D grid. -/
def enumerateGridFrom {α : Type} (i : ℕ) : List (List α) → List ((ℕ × ℕ) × α)
  | [] => []
  | row :: rest => enumerateRowFrom i 0 row ++ enumerateGridFrom (i + 1) rest

/-- `np.ndenumerate`-style key list of a 2-D grid: one `((i, a), cell)` entry
per cell. -/
def enumerateGrid {α : Type} (g : List (List α)) : List ((ℕ × ℕ) × α) :=
  enumerateGridFrom 0 g

/-- The materialized layer produced by `da.from_array(asset_table, chunks=1,
inline_array=True, ...)`: one task per asset-table cell, each holding that
cell. -/
structure MaterializedLayer where
  name : String
  tasks : List ((ℕ × ℕ) × AssetEntry)

/-- The `map_blocks(asset_table_to_reader_and_window, ...)` layer: a
symbolic blockwise layer of constant stored size, recording the source layer,
the chunk grid, the bound configuration arguments of the mapped function, and
the no-fuse annotation (`dask.annotate(fuse=False)`). -/
structure MapBlocksLayer (W : Type) where
  name : String
  source : String
  numblocks : ℕ × ℕ
  spec : RasterSpec
  resampling : Resampling
  dtype : DType
  fill_value : PyNum
  rescale : Bool
  gdal_env : Option LayeredEnv
  errors_as_nodata : List ErrKind
  reader : ReaderParams W → Reader W
  fuseAnnot : Bool

/-- The `blockwise(fetch_raster_window, name, "tbyx", reader_table.name,
"tb", Slices(chunks_yx), "yx", numblocks=...)` layer: the cartesian product
of the reader table and the window index, stored symbolically — index
strings, input names, the `Slices` dependency and the per-input chunk counts,
never a task list. -/
structure BlockwiseLayer where
  output : String
  output_indices : String
  input_name : String
  input_indices : String
  dep : Slices
  dep_indices : String
  numblocks : ℕ × ℕ

/-- The constructed dask array: its name, its 4-axis chunk structure, and the
three graph layers of its high-level graph. -/
structure DaskRasterArray (W : Type) where
  name : String
  chunks : List (List ℕ)
  asset_table_layer : MaterializedLayer
  reader_table_layer : MapBlocksLayer W
  fetch_layer : BlockwiseLayer

/-- The error message raised when the fill value cannot be cast to the output
dtype (interpolated values elided). -/
def fillValueErrorMsg : String :=
  "The fill_value is incompatible with the output dtype."

/-- Work performed at graph-construction time, counted as the number of
stored graph entities: one task per asset-table cell (the only materialized
layer), the two symbolic layer records, and the integers stored by the
`Slices` window index. Chunk execution is excluded. -/
def DaskRasterArray.graphConstructionWork {W : Type} (arr : DaskRasterArray W) : ℕ :=
  arr.asset_table_layer.tasks.length + arr.fetch_layer.dep.storageSize + 2

/-- `items_to_dask`: validate that the fill value can be cast to the output
dtype (else `ValueError`, before anything is built), then build the
asset-table layer (one task per cell), the reader-table `map_blocks` layer
under a no-fuse annotation, the spatial chunk structure, and the blockwise
fetch layer combining the reader table with the `Slices` window index. The
hash-based dask tokens in layer names are not modelled. -/
def items_to_dask {W : Type} (asset_table : List (List AssetEntry))
    (spec : RasterSpec) (chunksize : ℕ) (resampling : Resampling)
    (dtype : DType) (fill_value : PyNum) (rescale : Bool)
    (reader : ReaderParams W → Reader W) (gdal_env : Option LayeredEnv)
    (errors_as_nodata : List ErrKind) : Except String (DaskRasterArray W) :=
  if ¬ can_cast fill_value dtype then
    .error fillValueErrorMsg
  else
    let asset_table_name := "asset-table"
    let asset_table_layer : MaterializedLayer :=
      ⟨asset_table_name, enumerateGrid asset_table⟩
    let table_numblocks : ℕ × ℕ :=
      (asset_table.length, (asset_table.headD []).length)
    let reader_table_layer : MapBlocksLayer W :=
      { name := "asset_table_to_reader_and_window"
        source := asset_table_name
        numblocks := table_numblocks
        spec := spec
        resampling := resampling
        dtype := dtype
        fill_value := fill_value
        rescale := rescale
        gdal_env := gdal_env
        errors_as_nodata := errors_as_nodata
        reader := reader
        fuseAnnot := false }
    let reader_table_chunks : List (List ℕ) :=
      [List.replicate table_numblocks.1 1, List.replicate table_numblocks.2 1]
    let chunks_yx := normalizeChunks chunksize spec.shape
    let chunks := reader_table_chunks ++ chunks_yx
    let name := "fetch_raster_window"
    let fetch_layer : BlockwiseLayer :=
      { output := name
        output_indices := "tbyx"
        input_name := reader_table_layer.name
        input_indices := "tb"
        dep := Slices.ofChunks chunks_yx
        dep_indices := "yx"
        numblocks := table_numblocks }
    .ok
      { name := name
        chunks := chunks
        asset_table_layer := asset_table_layer
        reader_table_layer := reader_table_layer
        fetch_layer := fetch_layer }

/-! ### Concrete fixtures used by witnesses -/

/-- A concrete raster spec: 10 by 10 pixels, pixel `(row, col)` at coordinate
`(col, 10 - row)`. -/
def exampleSpec : RasterSpec :=
  ⟨(10, 10), ⟨1, 0, 0, 0, -1, 10⟩⟩

/-- A concrete asset window covering the full 10 by 10 grid. -/
def exampleWindow : Window := ⟨0, 0, 10, 10⟩

/-- A concrete Reader whose `read` ignores the world state and returns a
constant 5 by 5 block. -/
def exampleReader (W : Type) : Reader W :=
  ⟨"a.tif", .float64, .float .nan, fun _ _ => ⟨5, 5, fun _ _ => .int 1⟩⟩

/-- A concrete reader constructor for witnesses: it exposes the URL, dtype
and fill value it was handed, and reads constant 5 by 5 blocks. -/
def exampleReaderConstructor (W : Type) (p : ReaderParams W) : Reader W :=
  ⟨p.url, p.dtype, p.fill_value, fun _ _ => ⟨5, 5, fun _ _ => .int 1⟩⟩

/-- Junk default asset cell for out-of-range `getD` access in statements. -/
def defaultAssetEntry : AssetEntry := ⟨none, (0, 0, 0, 0)⟩

/-- Junk default reader-table cell for out-of-range `getD` access in
statements. -/
def defaultReaderEntry (W : Type) : ReaderTableEntry W := .fillArr ⟨.float64, .int 0⟩

/-! ### Helper lemmas -/

lemma scanl_add_getD (l : List ℕ) (b k : ℕ) (hk : k ≤ l.length) :
    (List.scanl (· + ·) b l).getD k 0 = b + (l.take k).sum := by
  induction l generalizing b k with
  | nil =>
    have hk0 : k = 0 := Nat.le_zero.mp hk
    subst hk0
    simp
  | cons x xs ih =>
    cases k with
    | zero => simp
    | succ k =>
      have hk' : k ≤ xs.length := Nat.succ_le_succ_iff.mp hk
      rw [List.scanl_cons, List.singleton_append, List.getD_cons_succ,
        List.take_succ_cons, List.sum_cons, ih (b + x) k hk']
      omega

lemma windowShape_from_slices (rows cols : PySlice) :
    windowShape (Window.from_slices rows cols) =
      ((rows.stop : ℤ) - (rows.start : ℤ), (cols.stop : ℤ) - (cols.start : ℤ)) := by
  have hr : (Window.from_slices rows cols).row_stop = ((rows.stop : ℤ) : ℚ) := by
    simp [Window.from_slices, Window.row_stop]
  have hc : (Window.from_slices rows cols).col_stop = ((cols.stop : ℤ) : ℚ) := by
    simp [Window.from_slices, Window.col_stop]
  have hr0 : (Window.from_slices rows cols).row_off = ((rows.start : ℤ) : ℚ) := by
    simp [Window.from_slices]
  have hc0 : (Window.from_slices rows cols).col_off = ((cols.start : ℤ) : ℚ) := by
    simp [Window.from_slices]
  rw [windowShape, hr, hc, hr0, hc0, round_intCast, round_intCast, round_intCast,
    round_intCast]

lemma fetch_eq_ok {W : Type} (grid : List (List (ReaderTableEntry W)))
    (rows cols : PySlice) (entry : ReaderTableEntry W) (world : W)
    (hgrid : grid.flatten = [entry]) :
    fetch_raster_window grid [rows, cols] world =
      .ok (fetchWindowBlock entry (Window.from_slices rows cols) world) := by
  unfold fetch_raster_window
  rw [hgrid]

lemma fetch_eq_error {W : Type} (grid : List (List (ReaderTableEntry W)))
    (slices : List PySlice) (world : W)
    (h : ¬ (slices.length = 2 ∧ grid.flatten.length = 1)) :
    fetch_raster_window grid slices world = .error "AssertionError" := by
  unfold fetch_raster_window
  rcases hflat : grid.flatten with _ | ⟨e, _ | ⟨e2, es⟩⟩ <;>
    rcases slices with _ | ⟨a, _ | ⟨b, _ | ⟨c, cs⟩⟩⟩ <;>
      first
        | rfl
        | exact absurd ⟨rfl, by rw [hflat]; rfl⟩ h

lemma ofChunks_storageSize (chunks : List (List ℕ)) :
    (Slices.ofChunks chunks).storageSize =
      (chunks.map (fun c => c.length + 1)).sum := by
  rw [Slices.storageSize, Slices.ofChunks, List.map_map]
  congr 1
  refine List.map_congr_left ?_
  intro c _
  simp [List.length_scanl]

lemma getD_map_map {α β : Type} (g : α → β) (t : List (List α)) (i j : ℕ)
    (d : α) (e : β) (hi : i < t.length) (hj : j < (t.getD i []).length) :
    ((t.map (List.map g)).getD i []).getD j e = g ((t.getD i []).getD j d) := by
  have hi' : i < (t.map (List.map g)).length := by
    rw [List.length_map]
    exact hi
  rw [List.getD_eq_getElem _ _ hi', List.getElem_map]
  have ht : t[i] = t.getD i [] := (List.getD_eq_getElem t [] hi).symm
  rw [ht]
  have hj' : j < ((t.getD i []).map g).length := by
    rw [List.length_map]
    exact hj
  rw [List.getD_eq_getElem _ _ hj', List.getElem_map, List.getD_eq_getElem _ _ hj]

lemma normalizeChunksAxis_sum (chunksize dim : ℕ) (hc : 0 < chunksize) :
    (normalizeChunksAxis chunksize dim).sum = dim := by
  unfold normalizeChunksAxis
  by_cases h : dim % chunksize = 0
  · rw [if_pos h, List.append_nil, List.sum_const_nat]
    exact Nat.div_mul_cancel (Nat.dvd_of_mod_eq_zero h)
  · rw [if_neg h, List.sum_append, List.sum_const_nat, List.sum_cons, List.sum_nil]
    have hdm := Nat.div_add_mod dim chunksize
    rw [Nat.mul_comm chunksize (dim / chunksize)] at hdm
    omega

lemma normalizeChunksAxis_mem (chunksize dim : ℕ) (hc : 0 < chunksize) :
    ∀ x ∈ normalizeChunksAxis chunksize dim, 0 < x ∧ x ≤ chunksize := by
  intro x hx
  unfold normalizeChunksAxis at hx
  rcases List.mem_append.mp hx with hx | hx
  · rw [List.eq_of_mem_replicate hx]
    exact ⟨hc, le_refl _⟩
  · by_cases h : dim % chunksize = 0
    · rw [if_pos h] at hx
      exact absurd hx (List.not_mem_nil x)
    · rw [if_neg h] at hx
      have hxm : x = dim % chunksize := by simpa using hx
      subst hxm
      exact ⟨Nat.pos_of_ne_zero h, Nat.le_of_lt (Nat.mod_lt _ hc)⟩

lemma normalizeChunksAxis_getD (chunksize dim i : ℕ)
    (hi : i + 1 < (normalizeChunksAxis chunksize dim).length) :
    (normalizeChunksAxis chunksize dim).getD i 0 = chunksize := by
  unfold normalizeChunksAxis at hi ⊢
  by_cases h : dim % chunksize = 0
  · rw [if_pos h, List.append_nil] at hi ⊢
    rw [List.length_replicate] at hi
    have hi' : i < dim / chunksize := by omega
    rw [List.getD_eq_getElem _ _ (by rw [List.length_replicate]; exact hi')]
    exact List.getElem_replicate _ _
  · rw [if_neg h] at hi ⊢
    rw [List.length_append, List.length_replicate, List.length_cons,
      List.length_nil] at hi
    have hi' : i < dim / chunksize := by omega
    rw [List.getD_append _ _ _ _ (by rw [List.length_replicate]; exact hi')]
    rw [List.getD_eq_getElem _ _ (by rw [List.length_replicate]; exact hi')]
    exact List.getElem_replicate _ _

lemma enumerateRowFrom_length {α : Type} (i a : ℕ) (row : List α) :
    (enumerateRowFrom i a row).length = row.length := by
  induction row generalizing a with
  | nil => rfl
  | cons x xs ih =>
    rw [enumerateRowFrom, List.length_cons, List.length_cons, ih]

lemma enumerateGridFrom_length {α : Type} (i : ℕ) (g : List (List α)) :
    (enumerateGridFrom i g).length = (g.map List.length).sum := by
  induction g generalizing i with
  | nil => rfl
  | cons row rest ih =>
    rw [enumerateGridFrom, List.length_append, enumerateRowFrom_length,
      List.map_cons, List.sum_cons, ih]

lemma enumerateGrid_length {α : Type} (g : List (List α)) :
    (enumerateGrid g).length = (g.map List.length).sum :=
  enumerateGridFrom_length 0 g

lemma map_length_sum_of_rect {α : Type} (g : List (List α)) (A : ℕ)
    (hrect : ∀ row ∈ g, row.length = A) :
    (g.map List.length).sum = g.length * A := by
  induction g with
  | nil => simp
  | cons row rest ih =>
    rw [List.map_cons, List.sum_cons, List.length_cons,
      hrect row (List.mem_cons_self row rest),
      ih fun r hr => hrect r (List.mem_cons_of_mem row hr)]
    ring

lemma add_le_mul_succ (Y X : ℕ) (hY : 1 ≤ Y) (hX : 1 ≤ X) : Y + X ≤ Y * X + 1 := by
  obtain ⟨y, rfl⟩ : ∃ y, Y = y + 1 := ⟨Y - 1, by omega⟩
  obtain ⟨x, rfl⟩ : ∃ x, X = x + 1 := ⟨X - 1, by omega⟩
  have hexp : (y + 1) * (x + 1) = y * x + y + x + 1 := by ring
  omega

lemma items_to_dask_error {W : Type} (asset_table : List (List AssetEntry))
    (spec : RasterSpec) (chunksize : ℕ) (resampling : Resampling) (dtype : DType)
    (fill_value : PyNum) (rescale : Bool) (reader : ReaderParams W → Reader W)
    (gdal_env : Option LayeredEnv) (errors_as_nodata : List ErrKind)
    (h : can_cast fill_value dtype = false) :
    items_to_dask (W := W) asset_table spec chunksize resampling dtype fill_value
      rescale reader gdal_env errors_as_nodata = .error fillValueErrorMsg := by
  unfold items_to_dask
  rw [if_pos (by simp [h])]

lemma items_to_dask_ok {W : Type} (asset_table : List (List AssetEntry))
    (spec : RasterSpec) (chunksize : ℕ) (resampling : Resampling) (dtype : DType)
    (fill_value : PyNum) (rescale : Bool) (reader : ReaderParams W → Reader W)
    (gdal_env : Option LayeredEnv) (errors_as_nodata : List ErrKind)
    (h : can_cast fill_value dtype = true) :
    items_to_dask (W := W) asset_table spec chunksize resampling dtype fill_value
      rescale reader gdal_env errors_as_nodata =
      .ok
        { name := "fetch_raster_window"
          chunks := [List.replicate asset_table.length 1,
            List.replicate (asset_table.headD []).length 1] ++
            normalizeChunks chunksize spec.shape
          asset_table_layer := ⟨"asset-table", enumerateGrid asset_table⟩
          reader_table_layer :=
            { name := "asset_table_to_reader_and_window"
              source := "asset-table"
              numblocks := (asset_table.length, (asset_table.headD []).length)
              spec := spec
              resampling := resampling
              dtype := dtype
              fill_value := fill_value
              rescale := rescale
              gdal_env := gdal_env
              errors_as_nodata := errors_as_nodata
              reader := reader
              fuseAnnot := false }
          fetch_layer :=
            { output := "fetch_raster_window"
              output_indices := "tbyx"
              input_name := "asset_table_to_reader_and_window"
              input_indices := "tb"
              dep := Slices.ofChunks (normalizeChunks chunksize spec.shape)
              dep_indices := "yx"
              numblocks := (asset_table.length, (asset_table.headD []).length) } } := by
  unfold items_to_dask
  rw [if_neg (by simp [h])]

/-! ### Claim theorems: the Slices window index -/

/-- Claim C5: the Slices index built from per-axis chunk sizes maps every
in-range chunk coordinate, on every axis, to exactly the pixel slice from the
cumulative sum of the first `idx` chunk sizes to the cumulative sum of the
first `idx + 1` of them (cumulative sums starting at 0); its `numblocks` is
the per-axis chunk count; and it stores exactly one cumulative-offset
sequence per axis (chunk count plus one integers each), nothing proportional
to the product of the chunk counts. -/
theorem slices_index_spec (chunks : List (List ℕ)) (idx : List ℕ)
    (hin : ∀ a, a < idx.length → idx.getD a 0 < (chunks.getD a []).length) :
    (∀ a, a < idx.length → a < chunks.length →
      ((Slices.ofChunks chunks).getitem idx).getD a ⟨0, 0⟩ =
        ⟨((chunks.getD a []).take (idx.getD a 0)).sum,
         ((chunks.getD a []).take (idx.getD a 0 + 1)).sum⟩) ∧
    (Slices.ofChunks chunks).numblocks = chunks.map List.length ∧
    (Slices.ofChunks chunks).storageSize =
      (chunks.map (fun c => c.length + 1)).sum := by
  refine ⟨?_, ?_, ?_⟩
  · intro a ha hc
    have hstarts : (Slices.ofChunks chunks).starts =
        chunks.map fun chunkRow => List.scanl (· + ·) 0 chunkRow := rfl
    have hlen : a < (List.zipWith
        (fun i start => PySlice.mk (start.getD i 0) (start.getD (i + 1) 0)) idx
        (Slices.ofChunks chunks).starts).length := by
      rw [List.length_zipWith, hstarts, List.length_map]
      omega
    rw [Slices.getitem, List.getD_eq_getElem _ _ hlen, List.getElem_zipWith]
    have hsa : a < (Slices.ofChunks chunks).starts.length := by
      rw [hstarts, List.length_map]
      exact hc
    have hmap : (Slices.ofChunks chunks).starts[a] =
        List.scanl (· + ·) 0 chunks[a] := by
      simp [hstarts]
    rw [hmap]
    have hidx : idx[a] = idx.getD a 0 := (List.getD_eq_getElem idx 0 ha).symm
    have hc' : chunks[a] = chunks.getD a [] := (List.getD_eq_getElem chunks [] hc).symm
    have hbound : idx.getD a 0 < (chunks.getD a []).length := hin a ha
    rw [hidx, hc']
    have h1 : (List.scanl (· + ·) 0 (chunks.getD a [])).getD (idx.getD a 0) 0 =
        ((chunks.getD a []).take (idx.getD a 0)).sum := by
      rw [scanl_add_getD _ _ _ (Nat.le_of_lt hbound)]
      omega
    have h2 : (List.scanl (· + ·) 0 (chunks.getD a [])).getD (idx.getD a 0 + 1) 0 =
        ((chunks.getD a []).take (idx.getD a 0 + 1)).sum := by
      have hb2 : idx.getD a 0 + 1 ≤ (chunks.getD a []).length := hbound
      rw [scanl_add_getD _ _ _ hb2]
      omega
    rw [h1, h2]
  · rw [Slices.numblocks, Slices.ofChunks, List.map_map]
    refine List.map_congr_left ?_
    intro c _
    simp [List.length_scanl]
  · exact ofChunks_storageSize chunks

/-- Witness for C5 at chunks `[[2, 3], [4]]` and chunk coordinate `(1, 0)`:
the first-axis slice is `(2, 5)`. -/
theorem slices_index_spec_witness :
    ((Slices.ofChunks [[2, 3], [4]]).getitem [1, 0]).getD 0 ⟨0, 0⟩ = ⟨2, 5⟩ := by
  have h := slices_index_spec [[2, 3], [4]] [1, 0] (by decide)
  have h0 := h.1 0 (by decide) (by decide)
  simpa using h0

/-- Claim C6: packing a Slices index for distribution and unpacking it yields a
Slices index with the same `starts` (indeed the same index, so `getitem`
agrees everywhere), and the packed state is exactly the per-axis
cumulative-offset sequences. -/
theorem slices_pack_roundtrip (s : Slices) (req : Option (List (List ℕ))) :
    Slices.dask_distributed_unpack (s.dask_distributed_pack req) = s ∧
    (∀ idx, (Slices.dask_distributed_unpack (s.dask_distributed_pack req)).getitem idx =
      s.getitem idx) ∧
    s.dask_distributed_pack req = s.starts :=
  ⟨rfl, fun _ => rfl, rfl⟩

/-! ### Claim theorems: the window-fetch executor -/

/-- Claim C1: if the single reader-table entry is a fill array (no URL), or a
`(Reader, Window)` pair whose asset window does not intersect the requested
window, then `fetch_raster_window` returns the fill value broadcast to shape
`(1, 1, window_rows, window_cols)` of the requested window: a constant array
of the fill value with exactly the requested shape, whether or not a URL is
present. -/
theorem fetch_fill_cases {W : Type} (grid : List (List (ReaderTableEntry W)))
    (rows cols : PySlice) (entry : ReaderTableEntry W) (world : W)
    (hgrid : grid.flatten = [entry])
    (hcase : (∃ s, entry = .fillArr s) ∨
      (∃ r aw, entry = .readerWindow r aw ∧
        windowsIntersect (Window.from_slices rows cols) aw = false)) :
    fetch_raster_window grid [rows, cols] world =
      .ok { shape := (1, 1, (rows.stop : ℤ) - (rows.start : ℤ),
                      (cols.stop : ℤ) - (cols.start : ℤ)),
            val := fun _ _ _ _ => entry.fillValueOf } := by
  have hb : ∀ v : PyNum, broadcastTo v (Window.from_slices rows cols) =
      { shape := (1, 1, (rows.stop : ℤ) - (rows.start : ℤ),
                  (cols.stop : ℤ) - (cols.start : ℤ)),
        val := fun _ _ _ _ => v } := by
    intro v
    rw [broadcastTo, windowShape_from_slices]
  rw [fetch_eq_ok grid rows cols entry world hgrid]
  rcases hcase with ⟨s, rfl⟩ | ⟨r, aw, rfl, hint⟩
  · simp only [fetchWindowBlock, ReaderTableEntry.fillValueOf]
    rw [hb]
  · simp only [fetchWindowBlock, ReaderTableEntry.fillValueOf, hint,
      Bool.false_eq_true, if_false]
    rw [hb]

/-- Witness for C1: a fill entry with value 7 at requested window rows 0 to
5, cols 0 to 5 produces the constant block of shape `(1, 1, 5, 5)`. -/
theorem fetch_fill_cases_witness :
    fetch_raster_window (W := Unit)
        [[.fillArr ⟨.float64, .float (.finite 7)⟩]] [⟨0, 5⟩, ⟨0, 5⟩] () =
      .ok { shape := (1, 1, 5, 5), val := fun _ _ _ _ => .float (.finite 7) } := by
  have h := fetch_fill_cases (W := Unit)
    [[.fillArr ⟨.float64, .float (.finite 7)⟩]] ⟨0, 5⟩ ⟨0, 5⟩
    (.fillArr ⟨.float64, .float (.finite 7)⟩) () rfl (Or.inl ⟨_, rfl⟩)
  simpa [ReaderTableEntry.fillValueOf] using h

/-- Claim C2: if the single reader-table entry is a `(Reader, Window)` pair
whose asset window intersects the requested window, `fetch_raster_window`
delegates to the Reader `read` for the requested window and returns that
block wrapped in two leading singleton axes; given the Reader-protocol
contract that `read` returns a block of the requested window shape, the
result shape is exactly `(1, 1, window_rows, window_cols)`, never the asset
extent. -/
theorem fetch_overlap_delegates {W : Type} (grid : List (List (ReaderTableEntry W)))
    (rows cols : PySlice) (r : Reader W) (aw : Window) (world : W)
    (hgrid : grid.flatten = [.readerWindow r aw])
    (hint : windowsIntersect (Window.from_slices rows cols) aw = true)
    (hread_rows : ((r.read (Window.from_slices rows cols) world).rows : ℤ) =
      (rows.stop : ℤ) - (rows.start : ℤ))
    (hread_cols : ((r.read (Window.from_slices rows cols) world).cols : ℤ) =
      (cols.stop : ℤ) - (cols.start : ℤ)) :
    fetch_raster_window grid [rows, cols] world =
      .ok (addOuterDims (r.read (Window.from_slices rows cols) world)) ∧
    (addOuterDims (r.read (Window.from_slices rows cols) world)).shape =
      (1, 1, (rows.stop : ℤ) - (rows.start : ℤ),
       (cols.stop : ℤ) - (cols.start : ℤ)) := by
  constructor
  · rw [fetch_eq_ok grid rows cols _ world hgrid]
    simp only [fetchWindowBlock, hint, if_true]
  · rw [addOuterDims, hread_rows, hread_cols]

/-- Witness for C2: a reader whose asset window covers the whole grid, read
at rows 0 to 5, cols 0 to 5, yields the read block with two leading singleton
axes and shape `(1, 1, 5, 5)`. -/
theorem fetch_overlap_delegates_witness :
    fetch_raster_window (W := Unit)
        [[.readerWindow (exampleReader Unit) exampleWindow]] [⟨0, 5⟩, ⟨0, 5⟩] () =
      .ok (addOuterDims ((exampleReader Unit).read
        (Window.from_slices ⟨0, 5⟩ ⟨0, 5⟩) ())) ∧
    (addOuterDims ((exampleReader Unit).read
        (Window.from_slices ⟨0, 5⟩ ⟨0, 5⟩) ())).shape = (1, 1, 5, 5) := by
  have h := fetch_overlap_delegates (W := Unit)
    [[.readerWindow (exampleReader Unit) exampleWindow]] ⟨0, 5⟩ ⟨0, 5⟩
    (exampleReader Unit) exampleWindow () rfl
    (by norm_num [windowsIntersect, Window.from_slices, exampleWindow,
      Window.row_stop, Window.col_stop])
    (by norm_num [exampleReader, Window.from_slices])
    (by norm_num [exampleReader, Window.from_slices])
  simpa using h

/-- Claim C8: the executor is deterministic. For a fixed reader-table entry
and requested window, if the Reader `read` operation is a function of its
window argument alone (it does not depend on the world state), two
invocations of `fetch_raster_window` in different world states return
identical blocks. -/
theorem fetch_deterministic {W : Type} (grid : List (List (ReaderTableEntry W)))
    (slices : List PySlice) (w1 w2 : W)
    (hdet : ∀ (r : Reader W) (aw : Window),
      grid.flatten = [.readerWindow r aw] →
      ∀ win s1 s2, r.read win s1 = r.read win s2) :
    fetch_raster_window grid slices w1 = fetch_raster_window grid slices w2 := by
  by_cases hpre : slices.length = 2 ∧ grid.flatten.length = 1
  · obtain ⟨hs, hg⟩ := hpre
    obtain ⟨a, b, rfl⟩ := List.length_eq_two.mp hs
    obtain ⟨e, hflat⟩ := List.length_eq_one.mp hg
    rw [fetch_eq_ok grid a b e w1 hflat, fetch_eq_ok grid a b e w2 hflat]
    cases e with
    | fillArr s => rfl
    | readerWindow r aw =>
      have hread := hdet r aw hflat (Window.from_slices a b) w1 w2
      simp only [fetchWindowBlock, hread]
  · rw [fetch_eq_error grid slices w1 hpre, fetch_eq_error grid slices w2 hpre]

/-- Witness for C8: a reader that ignores the world state gives bitwise-equal
results in two different world states. -/
theorem fetch_deterministic_witness :
    fetch_raster_window (W := Bool)
        [[.readerWindow (exampleReader Bool) exampleWindow]] [⟨0, 5⟩, ⟨0, 5⟩] true =
      fetch_raster_window (W := Bool)
        [[.readerWindow (exampleReader Bool) exampleWindow]] [⟨0, 5⟩, ⟨0, 5⟩] false := by
  refine fetch_deterministic (W := Bool)
    [[.readerWindow (exampleReader Bool) exampleWindow]] [⟨0, 5⟩, ⟨0, 5⟩]
    true false ?_
  intro r aw h win s1 s2
  have h' : [ReaderTableEntry.readerWindow (exampleReader Bool) exampleWindow] =
      [ReaderTableEntry.readerWindow r aw] := h
  injection h' with h1 _
  injection h1 with hr _
  subst hr
  rfl

/-- Claim C10: the executor asserts it received exactly two slices and a
one-cell reader-entry array, failing with an `AssertionError` otherwise;
whenever that documented precondition holds, no assertion fires and a block
is produced. -/
theorem fetch_assert_spec {W : Type} (grid : List (List (ReaderTableEntry W)))
    (slices : List PySlice) (world : W) :
    (¬ (slices.length = 2 ∧ grid.flatten.length = 1) →
      fetch_raster_window grid slices world = .error "AssertionError") ∧
    (slices.length = 2 ∧ grid.flatten.length = 1 →
      ∃ b, fetch_raster_window grid slices world = .ok b) := by
  constructor
  · intro hpre
    exact fetch_eq_error grid slices world hpre
  · rintro ⟨hs, hg⟩
    obtain ⟨a, b, rfl⟩ := List.length_eq_two.mp hs
    obtain ⟨e, hflat⟩ := List.length_eq_one.mp hg
    exact ⟨_, fetch_eq_ok grid a b e world hflat⟩

/-- Witness for C10: with no slices at all the executor raises the assertion
error; with two slices and one entry it produces a block. -/
theorem fetch_assert_spec_witness :
    fetch_raster_window (W := Unit)
        [[.fillArr ⟨.float64, .float .nan⟩]] [] () = .error "AssertionError" := by
  have h := fetch_assert_spec (W := Unit)
    [[.fillArr ⟨.float64, .float .nan⟩]] [] ()
  exact h.1 (by simp)

/-! ### Claim theorems: the reader-table builder -/

/-- Claim C4: on every asset-table grid the builder returns a grid of identical
shape where each cell without a URL holds the fill value cast to the output
dtype, and each cell with a URL holds a Reader instantiated with that URL and
the shared configuration, paired with the pixel window computed from the cell
bounds through the raster-spec transform with zero precision tolerance. -/
theorem reader_table_builder_spec {W : Type} (table : List (List AssetEntry))
    (spec : RasterSpec) (resampling : Resampling) (dtype : DType)
    (fill_value : PyNum) (rescale : Bool) (gdal_env : Option LayeredEnv)
    (errors_as_nodata : List ErrKind) (reader : ReaderParams W → Reader W) :
    (asset_table_to_reader_and_window table spec resampling dtype fill_value
        rescale gdal_env errors_as_nodata reader).length = table.length ∧
    (∀ i, ((asset_table_to_reader_and_window table spec resampling dtype fill_value
        rescale gdal_env errors_as_nodata reader).getD i []).length =
      (table.getD i []).length) ∧
    (∀ i j, i < table.length → j < (table.getD i []).length →
      ((table.getD i []).getD j defaultAssetEntry).url = none →
      ((asset_table_to_reader_and_window table spec resampling dtype fill_value
          rescale gdal_env errors_as_nodata reader).getD i []).getD j
          (defaultReaderEntry W) =
        .fillArr (castScalar fill_value dtype)) ∧
    (∀ i j u, i < table.length → j < (table.getD i []).length →
      ((table.getD i []).getD j defaultAssetEntry).url = some u →
      ((asset_table_to_reader_and_window table spec resampling dtype fill_value
          rescale gdal_env errors_as_nodata reader).getD i []).getD j
          (defaultReaderEntry W) =
        .readerWindow
          (reader
            { url := u, spec := spec, resampling := resampling, dtype := dtype,
              fill_value := fill_value, rescale := rescale, gdal_env := gdal_env,
              errors_as_nodata := errors_as_nodata })
          (windowFromBounds
            ((table.getD i []).getD j defaultAssetEntry).bounds.1
            ((table.getD i []).getD j defaultAssetEntry).bounds.2.1
            ((table.getD i []).getD j defaultAssetEntry).bounds.2.2.1
            ((table.getD i []).getD j defaultAssetEntry).bounds.2.2.2
            spec.transform)) := by
  unfold asset_table_to_reader_and_window
  refine ⟨List.length_map _ _, ?_, ?_, ?_⟩
  · intro i
    rcases Nat.lt_or_ge i table.length with hi | hi
    · rw [List.getD_eq_getElem _ _ (by rw [List.length_map]; exact hi),
        List.getElem_map, List.length_map, List.getD_eq_getElem _ _ hi]
    · rw [List.getD_eq_default _ _ (by rw [List.length_map]; exact hi),
        List.getD_eq_default _ _ hi]
      rfl
  · intro i j hi hj hurl
    rw [getD_map_map _ table i j defaultAssetEntry _ hi hj]
    rw [hurl]
  · intro i j u hi hj hurl
    rw [getD_map_map _ table i j defaultAssetEntry _ hi hj]
    rw [hurl]

/-- Witness for C4: a one-cell table whose cell has no URL yields the 0-d
fill scalar cast to the output dtype. -/
theorem reader_table_builder_spec_witness :
    ((asset_table_to_reader_and_window (W := Unit) [[⟨none, (0, 0, 10, 10)⟩]]
        exampleSpec Resampling.nearest .float64 (.float .nan) true none []
        (exampleReaderConstructor Unit)).getD 0 []).getD 0 (defaultReaderEntry Unit) =
      .fillArr (castScalar (.float .nan) .float64) := by
  have h := reader_table_builder_spec (W := Unit) [[⟨none, (0, 0, 10, 10)⟩]]
    exampleSpec Resampling.nearest .float64 (.float .nan) true none []
    (exampleReaderConstructor Unit)
  exact h.2.2.1 0 0 (by simp) (by simp) rfl

/-! ### Claim theorems: graph construction -/

/-- Claim C3: if the fill value is not representable in the output dtype,
`items_to_dask` fails with the fill-value `ValueError` (structurally before
the reader table or any graph layer is assembled — the guard is the first
step of the function); if it is representable, the check passes and
construction returns an array. -/
theorem items_to_dask_fill_value_guard {W : Type} (asset_table : List (List AssetEntry))
    (spec : RasterSpec) (chunksize : ℕ) (resampling : Resampling) (dtype : DType)
    (fill_value : PyNum) (rescale : Bool) (reader : ReaderParams W → Reader W)
    (gdal_env : Option LayeredEnv) (errors_as_nodata : List ErrKind) :
    (can_cast fill_value dtype = false →
      items_to_dask (W := W) asset_table spec chunksize resampling dtype fill_value
        rescale reader gdal_env errors_as_nodata = .error fillValueErrorMsg) ∧
    (can_cast fill_value dtype = true →
      ∃ arr, items_to_dask (W := W) asset_table spec chunksize resampling dtype
        fill_value rescale reader gdal_env errors_as_nodata = .ok arr) := by
  constructor
  · intro h
    exact items_to_dask_error asset_table spec chunksize resampling dtype fill_value
      rescale reader gdal_env errors_as_nodata h
  · intro h
    exact ⟨_, items_to_dask_ok asset_table spec chunksize resampling dtype fill_value
      rescale reader gdal_env errors_as_nodata h⟩

/-- Witness for C3: not-a-number as fill value with an int64 output dtype is
rejected with the fill-value error. -/
theorem items_to_dask_fill_value_guard_witness :
    items_to_dask (W := Unit) [[⟨some "a.tif", (0, 0, 10, 10)⟩]] exampleSpec 5
      Resampling.nearest .int64 (.float .nan) true (exampleReaderConstructor Unit)
      none [] = .error fillValueErrorMsg := by
  have h := items_to_dask_fill_value_guard (W := Unit)
    [[⟨some "a.tif", (0, 0, 10, 10)⟩]] exampleSpec 5 Resampling.nearest .int64
    (.float .nan) true (exampleReaderConstructor Unit) none []
  exact h.1 rfl

/-- Claim C9: the constructed array is chunked with size exactly 1 along the
item and asset axes; the row and column chunks are the normalized spatial
chunks: positive, at most the configured chunk size, summing to the raster
shape, and all equal to the chunk size except possibly the last (boundary)
chunk of each axis. -/
theorem items_to_dask_chunkstructure {W : Type} (asset_table : List (List AssetEntry))
    (spec : RasterSpec) (chunksize : ℕ) (resampling : Resampling) (dtype : DType)
    (fill_value : PyNum) (rescale : Bool) (reader : ReaderParams W → Reader W)
    (gdal_env : Option LayeredEnv) (errors_as_nodata : List ErrKind)
    (arr : DaskRasterArray W) (hc : 0 < chunksize)
    (hok : items_to_dask (W := W) asset_table spec chunksize resampling dtype
      fill_value rescale reader gdal_env errors_as_nodata = .ok arr) :
    arr.chunks = [List.replicate asset_table.length 1,
      List.replicate (asset_table.headD []).length 1,
      normalizeChunksAxis chunksize spec.shape.1,
      normalizeChunksAxis chunksize spec.shape.2] ∧
    (∀ x ∈ arr.chunks.getD 0 [], x = 1) ∧
    (∀ x ∈ arr.chunks.getD 1 [], x = 1) ∧
    (arr.chunks.getD 2 []).sum = spec.shape.1 ∧
    (arr.chunks.getD 3 []).sum = spec.shape.2 ∧
    (∀ x ∈ arr.chunks.getD 2 [], 0 < x ∧ x ≤ chunksize) ∧
    (∀ x ∈ arr.chunks.getD 3 [], 0 < x ∧ x ≤ chunksize) ∧
    (∀ i, i + 1 < (arr.chunks.getD 2 []).length →
      (arr.chunks.getD 2 []).getD i 0 = chunksize) ∧
    (∀ i, i + 1 < (arr.chunks.getD 3 []).length →
      (arr.chunks.getD 3 []).getD i 0 = chunksize) := by
  cases hcast : can_cast fill_value dtype with
  | false =>
    rw [items_to_dask_error asset_table spec chunksize resampling dtype fill_value
      rescale reader gdal_env errors_as_nodata hcast] at hok
    exact absurd hok (by simp)
  | true =>
    rw [items_to_dask_ok asset_table spec chunksize resampling dtype fill_value
      rescale reader gdal_env errors_as_nodata hcast] at hok
    injection hok with hok
    subst hok
    have h0 : (([List.replicate asset_table.length 1,
        List.replicate (asset_table.headD []).length 1] ++
        normalizeChunks chunksize spec.shape) : List (List ℕ)) =
        [List.replicate asset_table.length 1,
         List.replicate (asset_table.headD []).length 1,
         normalizeChunksAxis chunksize spec.shape.1,
         normalizeChunksAxis chunksize spec.shape.2] := rfl
    refine ⟨h0, ?_, ?_, ?_, ?_, ?_, ?_, ?_, ?_⟩
    · intro x hx
      have hx' : x ∈ List.replicate asset_table.length 1 := hx
      exact List.eq_of_mem_replicate hx'
    · intro x hx
      have hx' : x ∈ List.replicate (asset_table.headD []).length 1 := hx
      exact List.eq_of_mem_replicate hx'
    · exact normalizeChunksAxis_sum chunksize spec.shape.1 hc
    · exact normalizeChunksAxis_sum chunksize spec.shape.2 hc
    · exact fun x hx => normalizeChunksAxis_mem chunksize spec.shape.1 hc x hx
    · exact fun x hx => normalizeChunksAxis_mem chunksize spec.shape.2 hc x hx
    · exact fun i hi => normalizeChunksAxis_getD chunksize spec.shape.1 i hi
    · exact fun i hi => normalizeChunksAxis_getD chunksize spec.shape.2 i hi

/-- Witness for C9: a one-cell table over a 10 by 10 raster with chunk size 5
gives chunks `[[1], [1], [5, 5], [5, 5]]`. -/
theorem items_to_dask_chunkstructure_witness :
    Except.map (fun arr => DaskRasterArray.chunks arr)
      (items_to_dask (W := Unit) [[⟨some "a.tif", (0, 0, 10, 10)⟩]] exampleSpec 5
        Resampling.nearest .float64 (.float .nan) true (exampleReaderConstructor Unit)
        none []) = .ok [[1], [1], [5, 5], [5, 5]] := by
  have harr := items_to_dask_ok (W := Unit) [[⟨some "a.tif", (0, 0, 10, 10)⟩]]
    exampleSpec 5 Resampling.nearest .float64 (.float .nan) true
    (exampleReaderConstructor Unit) none [] rfl
  have h := items_to_dask_chunkstructure (W := Unit) [[⟨some "a.tif", (0, 0, 10, 10)⟩]]
    exampleSpec 5 Resampling.nearest .float64 (.float .nan) true
    (exampleReaderConstructor Unit) none [] _ (by norm_num) harr
  rw [harr]
  simp only [Except.map]
  exact congrArg Except.ok (h.1.trans (by rfl))

/-- Claim C7: the graph-construction work of `items_to_dask` is the number of
asset-table cells plus the size of the window index plus a constant: exactly
`I * A + (Y + 1) + (X + 1) + 2` for a rectangular table, hence bounded by
`I * A + Y * X + 5` — additive, never proportional to `I * A * Y * X`; the
cartesian product lives only in the symbolic blockwise fetch layer, which
stores the window index and names, not a task list. -/
theorem items_to_dask_graph_work {W : Type} (asset_table : List (List AssetEntry))
    (spec : RasterSpec) (chunksize : ℕ) (resampling : Resampling) (dtype : DType)
    (fill_value : PyNum) (rescale : Bool) (reader : ReaderParams W → Reader W)
    (gdal_env : Option LayeredEnv) (errors_as_nodata : List ErrKind)
    (arr : DaskRasterArray W)
    (hrect : ∀ row ∈ asset_table, row.length = (asset_table.headD []).length)
    (hok : items_to_dask (W := W) asset_table spec chunksize resampling dtype
      fill_value rescale reader gdal_env errors_as_nodata = .ok arr) :
    arr.graphConstructionWork =
      asset_table.length * (asset_table.headD []).length +
        ((normalizeChunksAxis chunksize spec.shape.1).length + 1) +
        ((normalizeChunksAxis chunksize spec.shape.2).length + 1) + 2 ∧
    (1 ≤ (normalizeChunksAxis chunksize spec.shape.1).length →
      1 ≤ (normalizeChunksAxis chunksize spec.shape.2).length →
      arr.graphConstructionWork ≤
        asset_table.length * (asset_table.headD []).length +
          (normalizeChunksAxis chunksize spec.shape.1).length *
            (normalizeChunksAxis chunksize spec.shape.2).length + 5) := by
  cases hcast : can_cast fill_value dtype with
  | false =>
    rw [items_to_dask_error asset_table spec chunksize resampling dtype fill_value
      rescale reader gdal_env errors_as_nodata hcast] at hok
    exact absurd hok (by simp)
  | true =>
    rw [items_to_dask_ok asset_table spec chunksize resampling dtype fill_value
      rescale reader gdal_env errors_as_nodata hcast] at hok
    injection hok with hok
    subst hok
    have hwork : (DaskRasterArray.graphConstructionWork
        { name := "fetch_raster_window"
          chunks := [List.replicate asset_table.length 1,
            List.replicate (asset_table.headD []).length 1] ++
            normalizeChunks chunksize spec.shape
          asset_table_layer := ⟨"asset-table", enumerateGrid asset_table⟩
          reader_table_layer :=
            { name := "asset_table_to_reader_and_window"
              source := "asset-table"
              numblocks := (asset_table.length, (asset_table.headD []).length)
              spec := spec
              resampling := resampling
              dtype := dtype
              fill_value := fill_value
              rescale := rescale
              gdal_env := gdal_env
              errors_as_nodata := errors_as_nodata
              reader := reader
              fuseAnnot := false }
          fetch_layer :=
            { output := "fetch_raster_window"
              output_indices := "tbyx"
              input_name := "asset_table_to_reader_and_window"
              input_indices := "tb"
              dep := Slices.ofChunks (normalizeChunks chunksize spec.shape)
              dep_indices := "yx"
              numblocks := (asset_table.length, (asset_table.headD []).length) } }) =
        asset_table.length * (asset_table.headD []).length +
          ((normalizeChunksAxis chunksize spec.shape.1).length + 1) +
          ((normalizeChunksAxis chunksize spec.shape.2).length + 1) + 2 := by
      rw [DaskRasterArray.graphConstructionWork]
      rw [show ({ name := "asset-table", tasks := enumerateGrid asset_table } :
        MaterializedLayer).tasks = enumerateGrid asset_table from rfl]
      rw [enumerateGrid_length,
        map_length_sum_of_rect asset_table (asset_table.headD []).length hrect]
      rw [show (Slices.ofChunks (normalizeChunks chunksize spec.shape)).storageSize =
        ((normalizeChunksAxis chunksize spec.shape.1).length + 1) +
        ((normalizeChunksAxis chunksize spec.shape.2).length + 1) by
          rw [ofChunks_storageSize]
          simp [normalizeChunks]]
      omega
    refine ⟨hwork, ?_⟩
    intro hY hX
    rw [hwork]
    have hb := add_le_mul_succ (normalizeChunksAxis chunksize spec.shape.1).length
      (normalizeChunksAxis chunksize spec.shape.2).length hY hX
    omega

/-- Witness for C7: for a 1 by 1 table over a 10 by 10 raster with chunk
size 5 (so Y = X = 2), the construction work is 9, within the additive
bound 1 + 4 + 5. -/
theorem items_to_dask_graph_work_witness :
    Except.map DaskRasterArray.graphConstructionWork
      (items_to_dask (W := Unit) [[⟨some "a.tif", (0, 0, 10, 10)⟩]] exampleSpec 5
        Resampling.nearest .float64 (.float .nan) true (exampleReaderConstructor Unit)
        none []) = .ok 9 := by
  have harr := items_to_dask_ok (W := Unit) [[⟨some "a.tif", (0, 0, 10, 10)⟩]]
    exampleSpec 5 Resampling.nearest .float64 (.float .nan) true
    (exampleReaderConstructor Unit) none [] rfl
  have h := items_to_dask_graph_work (W := Unit) [[⟨some "a.tif", (0, 0, 10, 10)⟩]]
    exampleSpec 5 Resampling.nearest .float64 (.float .nan) true
    (exampleReaderConstructor Unit) none [] _
    (by intro row hr; rw [List.mem_singleton] at hr; subst hr; rfl) harr
  rw [harr]
  simp only [Except.map]
  exact congrArg Except.ok (h.1.trans (by rfl))

end StackStac
